import Mathlib

/-!
Verification of the column-normalization core of the `ml-converter`
repository (`src/converters.py`, plus the monetary-column test of
`src/app.py`), as a shallow embedding in Lean 4.

Modelling conventions:
* Python strings are `List Char` (wrapped in `String` at the interfaces).
* Python numbers are modelled exactly: `PyFloat` carries a rational for
  finite values plus signed infinities and NaN.  The int-to-float
  conversion `float(int)` is modelled value-exactly by `pyFloatOfInt`
  (round-half-even on a 53-bit significand, `none` for the uncaught
  OverflowError beyond double range); string parsing keeps exact
  rationals, where every claim only compares decimal literals.
* The Unicode tables used by `unicodedata` (NFKD/NFKC, combining classes)
  and `str.lower` are restricted to the repertoire exercised by the
  repository and its tests (ASCII, Latin-1 accents, a few compatibility
  characters); all remaining characters are mapped to themselves.
* `pandas` cells are a tagged variant `Value` over
  {null, bool, int, float, str}; a DataFrame is a list of named columns,
  each with a dtype tag and a cell list.  `pd.NA`/`NaN` results are
  modelled with the `Value.null` marker.
-/

namespace MLConv

/-! ### Character helpers -/

/-- Characters Python `str.strip()` removes and `float()` skips
(Unicode whitespace, restricted to the common repertoire). -/
def isPySpace (c : Char) : Bool :=
  c == ' ' || c == '\t' || c == '\n' || c == '\r' ||
  c == Char.ofNat 0x0B || c == Char.ofNat 0x0C ||
  (0x1C ≤ c.toNat && c.toNat ≤ 0x1F) ||
  c == Char.ofNat 0x85 || c == Char.ofNat 0xA0 ||
  c == Char.ofNat 0x1680 || (0x2000 ≤ c.toNat && c.toNat ≤ 0x200A) ||
  c == Char.ofNat 0x2028 || c == Char.ofNat 0x2029 ||
  c == Char.ofNat 0x202F || c == Char.ofNat 0x205F || c == Char.ofNat 0x3000

def isAsciiDigit (c : Char) : Bool :=
  0x30 ≤ c.toNat && c.toNat ≤ 0x39

/-- Python `s.strip()`: drop leading and trailing whitespace. -/
def pyStrip (l : List Char) : List Char :=
  ((l.dropWhile isPySpace).reverse.dropWhile isPySpace).reverse

/-- Python `s.replace(c, "")` for a one-character needle. -/
def removeChar (c : Char) (l : List Char) : List Char :=
  l.filter (fun x => x != c)

/-- Python `s.replace(c, d)` for one-character needle and replacement. -/
def replaceChar (c d : Char) (l : List Char) : List Char :=
  l.map (fun x => if x == c then d else x)

/-- Python `s.count(c)` for a single character. -/
def countCh (c : Char) (l : List Char) : Nat :=
  l.count c

/-- Python `s.rfind(c)`: index of the last occurrence, `-1` if absent. -/
def pyRFind (c : Char) (l : List Char) : Int :=
  l.enum.foldl (fun acc p => if p.2 == c then (p.1 : Int) else acc) (-1)

/-- The part of `l` after the first occurrence of `c`
(`s.split(c)[1]` when `c` occurs exactly once). -/
def afterFirst (c : Char) (l : List Char) : List Char :=
  (l.dropWhile (fun x => x != c)).drop 1

/-! ### Restricted Unicode tables -/

/-- ASCII lowercasing (used inside `float()` keyword matching). -/
def lowerA (c : Char) : Char :=
  if 0x41 ≤ c.toNat && c.toNat ≤ 0x5A then Char.ofNat (c.toNat + 0x20) else c

/-- Python `str.lower`, restricted to ASCII and Latin-1: `A`–`Z` and the
accented capitals `À`–`Þ` (except `×`) map down by `0x20`; everything else
in the modelled repertoire is caseless or already lowercase. -/
def pyLowerChar (c : Char) : Char :=
  if 0x41 ≤ c.toNat && c.toNat ≤ 0x5A then Char.ofNat (c.toNat + 0x20)
  else if 0xC0 ≤ c.toNat && c.toNat ≤ 0xDE && c.toNat ≠ 0xD7 then
    Char.ofNat (c.toNat + 0x20)
  else c

/-- `unicodedata.combining c ≠ 0`, restricted to the combining
diacritical marks block U+0300–U+036F. -/
def isCombiningMark (c : Char) : Bool :=
  0x300 ≤ c.toNat && c.toNat ≤ 0x36F

/-- Combining acute accent U+0301. -/
def accAcute : Char := Char.ofNat 0x301

/-- Combining grave accent U+0300. -/
def accGrave : Char := Char.ofNat 0x300

/-- Combining tilde U+0303. -/
def accTilde : Char := Char.ofNat 0x303

/-- Combining diaeresis U+0308. -/
def accDiaeresis : Char := Char.ofNat 0x308

/-- `unicodedata.normalize("NFKD", ·)` per character, restricted to the
Latin-1 accented letters, the diaeresis sign `¨` (which decomposes to a
space plus combining diaeresis), the no-break space, and the letterlike
symbol `ℂ` (whose compatibility decomposition is the capital `C`);
all other characters decompose to themselves. -/
def nfkdChar (c : Char) : List Char :=
  if c = 'á' then ['a', accAcute]
  else if c = 'é' then ['e', accAcute]
  else if c = 'í' then ['i', accAcute]
  else if c = 'ó' then ['o', accAcute]
  else if c = 'ú' then ['u', accAcute]
  else if c = 'à' then ['a', accGrave]
  else if c = 'è' then ['e', accGrave]
  else if c = 'ì' then ['i', accGrave]
  else if c = 'ò' then ['o', accGrave]
  else if c = 'ù' then ['u', accGrave]
  else if c = 'ñ' then ['n', accTilde]
  else if c = 'ä' then ['a', accDiaeresis]
  else if c = 'ë' then ['e', accDiaeresis]
  else if c = 'ï' then ['i', accDiaeresis]
  else if c = 'ö' then ['o', accDiaeresis]
  else if c = 'ü' then ['u', accDiaeresis]
  else if c = '¨' then [' ', accDiaeresis]
  else if c = 'ℂ' then ['C']
  else if c = Char.ofNat 0xA0 then [' ']
  else [c]

/-- `unicodedata.normalize("NFKC", ·)` per character, restricted to
full-width digits and punctuation, superscript digits, and the no-break
space; all other characters normalize to themselves. -/
def nfkcChar (c : Char) : List Char :=
  if 0xFF10 ≤ c.toNat && c.toNat ≤ 0xFF19 then [Char.ofNat (c.toNat - 0xFF10 + 0x30)]
  else if c = Char.ofNat 0xFF0C then [',']
  else if c = Char.ofNat 0xFF0E then ['.']
  else if c = Char.ofNat 0xA0 then [' ']
  else if c = '¹' then ['1']
  else if c = '²' then ['2']
  else if c = '³' then ['3']
  else [c]

def flatMapChars (f : Char → List Char) : List Char → List Char
  | [] => []
  | c :: t => f c ++ flatMapChars f t

/-! ### Data model: Python cell values -/

/-- A Python float value: finite values carried exactly as rationals,
plus the signed infinities and NaN. -/
inductive PyFloat where
  | finite (q : ℚ)
  | inf (neg : Bool)
  | nan
deriving DecidableEq, Repr

/-- A cell value as produced by the table reader: one of
{None, bool, int, float, str}. -/
inductive Value where
  | null
  | bool (b : Bool)
  | int (n : ℤ)
  | float (f : PyFloat)
  | str (s : String)
deriving DecidableEq, Repr

/-- Smallest `k ≤ 1200` with `q * 10 ^ k` integral (exists for every
value representable as a binary float). -/
def decExpSearch (q : ℚ) : Option Nat :=
  (List.range 1200).find? (fun k => (q * 10 ^ k).den == 1)

/-- Decimal rendering of a rational, used to model Python `str(float)`
on the decimally representable values of the modelled repertoire
(Python's scientific-notation thresholds are outside it). -/
def ratToDecimalString (q : ℚ) : String :=
  let sign := if q < 0 then "-" else ""
  let a := |q|
  match decExpSearch a with
  | Option.none => sign ++ toString a.num ++ "/" ++ toString a.den
  | some k =>
    if k == 0 then sign ++ toString a.num ++ ".0"
    else
      let m := (a * 10 ^ k).num.toNat
      let ds := toString m
      let ds := if ds.length ≤ k then
          String.mk (List.replicate (k + 1 - ds.length) '0') ++ ds
        else ds
      sign ++ (ds.take (ds.length - k)) ++ "." ++ (ds.drop (ds.length - k))

/-- Python `str(·)` for float values (`str(float("inf")) = "inf"` etc.). -/
def pyStrOfFloat : PyFloat → String
  | .finite q => ratToDecimalString q
  | .inf b => if b then "-inf" else "inf"
  | .nan => "nan"

/-- `_coerce_to_string` from `converters.py`: None → none; numeric
non-bool NaN → none, other numerics → their decimal string; any other
value → its trimmed string form, or none if that is empty. -/
def coerceToString : Value → Option (List Char)
  | .null => Option.none
  | .int n => some (toString n).data
  | .float .nan => Option.none
  | .float f => some (pyStrOfFloat f).data
  | .bool b => some (if b then "True".data else "False".data)
  | .str s =>
    let t := pyStrip s.data
    if t.isEmpty then Option.none else some t

/-! ### Python `float()` acceptance and value -/

/-- Case-insensitively consume the ASCII word `w` at the front of `l`,
returning the remainder on success. -/
def matchCI (l w : List Char) : Option (List Char) :=
  match w, l with
  | [], _ => some l
  | _ :: _, [] => Option.none
  | c :: wt, x :: lt => if lowerA x == c then matchCI lt wt else Option.none

/-- PEP 515: every underscore must sit directly between two digits.
The first argument is the preceding character, if any. -/
def underscoresOkAux : Option Char → List Char → Bool
  | _, [] => true
  | prev, c :: t =>
    if c == '_' then
      match prev, t with
      | some p, n :: _ => isAsciiDigit p && isAsciiDigit n && underscoresOkAux (some c) t
      | _, _ => false
    else underscoresOkAux (some c) t

def underscoresOk (l : List Char) : Bool :=
  underscoresOkAux Option.none l

def digitsToNat (ds : List Char) : Nat :=
  ds.foldl (fun a c => a * 10 + (c.toNat - 0x30)) 0

/-- Unsigned decimal part of the `float()` grammar:
`digits [. digits] [e [sign] digits]`, needing at least one mantissa
digit; returns the value and the unconsumed remainder. -/
def parseDecCore (l : List Char) : Option (ℚ × List Char) :=
  let ip := l.takeWhile isAsciiDigit
  let r1 := l.dropWhile isAsciiDigit
  let hasDot := r1.head? == some '.'
  let afterDot := if hasDot then r1.drop 1 else r1
  let fp := if hasDot then afterDot.takeWhile isAsciiDigit else []
  let r2 := if hasDot then afterDot.dropWhile isAsciiDigit else r1
  if ip.isEmpty && fp.isEmpty then Option.none
  else
    let mant : ℚ := (digitsToNat (ip ++ fp) : ℚ) / (10 : ℚ) ^ fp.length
    match r2 with
    | [] => some (mant, [])
    | c :: t =>
      if lowerA c == 'e' then
        let est : Bool × List Char :=
          match t with
          | s :: tt => if s == '+' then (false, tt)
                       else if s == '-' then (true, tt)
                       else (false, t)
          | [] => (false, [])
        let eds := est.2.takeWhile isAsciiDigit
        let r3 := est.2.dropWhile isAsciiDigit
        if eds.isEmpty then Option.none
        else
          let e := digitsToNat eds
          some ((if est.1 then mant / 10 ^ e else mant * 10 ^ e), r3)
      else some (mant, c :: t)

/-- CPython `float(str)`: underscore validation, whitespace and sign,
then `inf`/`infinity`/`nan` (case-insensitive) or a decimal literal,
with only whitespace allowed after.  `none` models `ValueError`. -/
def pyFloatValue (l0 : List Char) : Option PyFloat :=
  if !(underscoresOk l0) then Option.none
  else
    let l1 := (l0.filter (fun c => c != '_')).dropWhile isPySpace
    let sn : Bool × List Char :=
      match l1 with
      | c :: t => if c == '-' then (true, t)
                  else if c == '+' then (false, t)
                  else (false, l1)
      | [] => (false, [])
    let neg := sn.1
    let l2 := sn.2
    match matchCI l2 "infinity".data with
    | some r =>
      if (r.dropWhile isPySpace).isEmpty then some (PyFloat.inf neg) else Option.none
    | Option.none =>
    match matchCI l2 "inf".data with
    | some r =>
      if (r.dropWhile isPySpace).isEmpty then some (PyFloat.inf neg) else Option.none
    | Option.none =>
    match matchCI l2 "nan".data with
    | some r =>
      if (r.dropWhile isPySpace).isEmpty then some PyFloat.nan else Option.none
    | Option.none =>
    match parseDecCore l2 with
    | some (q, r) =>
      if (r.dropWhile isPySpace).isEmpty then
        some (PyFloat.finite (if neg then -q else q))
      else Option.none
    | Option.none => Option.none

/-! ### The numeric-text parser (`_parse_numeric_text`) -/

/-- The recognized currency symbols, in the source's order. -/
def currencySymbols : List Char := ['$', '€', '£', '¥', '₽', '₱', '₹']

/-- `_strip_currency_symbols`: successive `replace(symbol, "")`. -/
def stripCurrency (l : List Char) : List Char :=
  currencySymbols.foldl (fun acc c => removeChar c acc) l

/-- The negative-sign detection block: parenthesized value, trailing
minus, leading minus (each setting the flag), then a leading plus. -/
def stripSign (l : List Char) : List Char × Bool :=
  let p1 : List Char × Bool :=
    if l.head? == some '(' && l.getLast? == some ')' then ((l.drop 1).dropLast, true)
    else (l, false)
  let p2 : List Char × Bool :=
    if p1.1.getLast? == some '-' then (p1.1.dropLast, true) else p1
  let p3 : List Char × Bool :=
    if p2.1.head? == some '-' then (p2.1.drop 1, true) else p2
  let p4 : List Char :=
    if p3.1.head? == some '+' then p3.1.drop 1 else p3.1
  (p4, p3.2)

/-- The decimal/thousands disambiguation block: with both separators the
rightmost wins, a single comma with at most two trailing characters is a
decimal comma, and otherwise commas are removed. -/
def resolveSeparators (l : List Char) : List Char :=
  if l.contains '.' && l.contains ',' then
    if pyRFind '.' l > pyRFind ',' l then removeChar ',' l
    else replaceChar ',' '.' (removeChar '.' l)
  else if countCh ',' l == 1 && decide ((afterFirst ',' l).length ≤ 2) then
    replaceChar ',' '.' l
  else removeChar ',' l

/-- Keep only the first `'.'` of the list, dropping later ones. -/
def keepFirstDot : List Char → List Char
  | [] => []
  | c :: t => if c == '.' then c :: removeChar '.' t else c :: keepFirstDot t

/-- The multiple-dot collapse: `join(parts[:-1]) + "." + parts[-1]`,
i.e. every dot except the last is removed. -/
def collapseDots (l : List Char) : List Char :=
  if countCh '.' l > 1 then (keepFirstDot l.reverse).reverse else l

/-- Steps 1–3 of the cleaning pipeline of `_parse_numeric_text`: NFKC
normalization, removal of no-break spaces, currency stripping, then the
sign-detection block (whose flag is the second component). -/
def signedCore (t : List Char) : List Char × Bool :=
  stripSign (stripCurrency (removeChar (Char.ofNat 0xA0) (flatMapChars nfkcChar t)))

/-- The fully cleaned candidate string of `_parse_numeric_text`: space
removal, separator disambiguation, dot collapse, apostrophe removal. -/
def cleanedNumeric (t : List Char) : List Char :=
  removeChar (Char.ofNat 39)
    (collapseDots (resolveSeparators (removeChar ' ' (signedCore t).1)))

/-- The cleaning pipeline of `_parse_numeric_text` applied to the coerced
display string; the cleaned value is kept only if `float()` accepts it. -/
def parseNumericTextS (t : List Char) : Option (List Char) × Bool :=
  if (pyFloatValue (cleanedNumeric t)).isSome then (some (cleanedNumeric t), (signedCore t).2)
  else (Option.none, false)

/-- `_parse_numeric_text`: coerce to a display string, then clean;
the cleaned value is returned only if it parses as a float. -/
def parseNumericText (v : Value) : Option (List Char) × Bool :=
  match coerceToString v with
  | Option.none => (Option.none, false)
  | some t => parseNumericTextS t

/-- `is_numeric_like`: the parse produced a cleaned value. -/
def isNumericLike (v : Value) : Bool :=
  (parseNumericText v).1.isSome

/-- `is_numeric_like` applied to a cleaned display string. -/
def isNumericLikeStr (l : List Char) : Bool :=
  isNumericLike (.str (String.mk l))

/-- Python unary minus on a float value. -/
def pyNeg : PyFloat → PyFloat
  | .finite q => .finite (-q)
  | .inf b => .inf (!b)
  | .nan => .nan

/-- Floor of the base-2 logarithm, by fuelled halving (`0` for `m ≤ 1`);
the fuel is consumed once per halving, so `m` itself is always enough. -/
def log2Fuel : Nat → Nat → Nat
  | 0, _ => 0
  | fuel + 1, m => if 2 ≤ m then log2Fuel fuel (m / 2) + 1 else 0

def floorLog2 (m : Nat) : Nat := log2Fuel m m

/-- CPython `float(int)` — the checked conversion performed by
`float(text_value)` on an int cell: the nearest double under
round-half-even on a 53-bit significand.  `none` models the
**OverflowError** CPython raises (uncaught in `convert_numeric_text`)
when the rounded magnitude reaches `2 ^ 1024`.  Only the numeric value
is modelled, not the bit representation. -/
def pyFloatOfInt (n : ℤ) : Option PyFloat :=
  if n = 0 then some (PyFloat.finite 0)
  else
    let m := n.natAbs
    let b := floorLog2 m
    if b ≤ 52 then some (PyFloat.finite (n : ℚ))
    else
      let shift := b - 52
      let q := m / 2 ^ shift
      let r := m % 2 ^ shift
      let half := 2 ^ (shift - 1)
      let q2 := if half < r || (r == half && q % 2 == 1) then q + 1 else q
      let val := q2 * 2 ^ shift
      if 2 ^ 1024 ≤ val then Option.none
      else some (PyFloat.finite (if n < 0 then -(val : ℚ) else (val : ℚ)))

/-- `convert_numeric_text`: None → NA; a numeric non-bool input is
passed through `float()` — for an int cell this is the checked
conversion `pyFloatOfInt`, whose `none` result marks the uncaught
`OverflowError` of `float(huge_int)` rather than a pandas NA; a float
passes through unchanged (NaN → NA); otherwise parse the text and
negate on the flag. -/
def convertNumericText (v : Value) : Option PyFloat :=
  match v with
  | .null => Option.none
  | .int n => pyFloatOfInt n
  | .float PyFloat.nan => Option.none
  | .float f => some f
  | _ =>
    match parseNumericText v with
    | (Option.none, _) => Option.none
    | (some c, neg) =>
      match pyFloatValue c with
      | Option.none => Option.none
      | some f => some (if neg then pyNeg f else f)

/-! ### Column-name normalization and classification -/

/-- `normalize_column_name` on a string: trim, lowercase, NFKD-decompose
and drop the combining diacritical marks. -/
def normalizeColumnName (s : String) : String :=
  String.mk
    ((flatMapChars nfkdChar ((pyStrip s.data).map pyLowerChar)).filter
      (fun c => !(isCombiningMark c)))

/-- `normalize_column_name` on an arbitrary cell value: non-strings
normalize to the empty string. -/
def normalizeColumnNameObj : Value → String
  | .str s => normalizeColumnName s
  | _ => ""

/-- Python `needle in hay` on strings: contiguous-substring test. -/
def containsSub (hay needle : List Char) : Bool :=
  (List.range (hay.length + 1)).any
    (fun i => (hay.drop i).take needle.length == needle)

def idKeywords : List (List Char) := ["id".data]

/-- `_should_force_numeric`: the normalized name contains `"id"`. -/
def shouldForceNumeric (normName : String) : Bool :=
  idKeywords.any (fun k => containsSub normName.data k)

/-- `find_columns_with_keywords`: normalize keywords and names, keep
the columns where some non-empty keyword occurs in the name. -/
def findColumnsWithKeywords (columns keywords : List String) : List String :=
  let normalizedKeywords := keywords.map normalizeColumnName
  columns.filter (fun c =>
    normalizedKeywords.any (fun k =>
      k != "" && containsSub (normalizeColumnName c).data k.data))

/-- The normalized monetary target phrases of `app.py`. -/
def moneyColTargets : List String :=
  ["valor de la compra", "comision mas iva", "comisión más iva",
   "monto neto de operacion", "monto neto de operación",
   "impuestos cobrados por retenciones iibb"]

/-- The monetary-column membership test of `app.py`:
`normalize_column_name(col) in money_col_targets` (exact list member). -/
def isMonetaryColumn (col : String) : Bool :=
  moneyColTargets.contains (normalizeColumnName col)

/-! ### The table converter (`convert_text_columns_to_numbers`) -/

/-- The pandas dtype of a column, as far as the converter inspects it. -/
inductive Dtype where
  | numeric
  | object
  | stringD
  | other
deriving DecidableEq, Repr

/-- A named column: its dtype and its cells. -/
structure Col where
  dtype : Dtype
  cells : List Value
deriving DecidableEq, Repr

/-- `pd.isna`: None and float NaN count as missing. -/
def isNA : Value → Bool
  | .null => true
  | .float .nan => true
  | _ => false

def isTextualDtype (d : Dtype) : Bool :=
  d == Dtype.object || d == Dtype.stringD

/-- The cleaned non-null display strings of a column
(`series.dropna().map(_coerce_to_string).dropna()`). -/
def cleanedDisplayStrings (col : Col) : List (List Char) :=
  ((col.cells.filter (fun v => !(isNA v))).map coerceToString).reduceOption

/-- One converted cell: `convert_numeric_text` then
`pd.to_numeric(·, errors="coerce")`, with NA rendered as the null marker. -/
def convertCell (v : Value) : Value :=
  match convertNumericText v with
  | some f => Value.float f
  | Option.none => Value.null

/-- The per-column step of `convert_text_columns_to_numbers`: the
returned flag records whether the column was converted.  The guards are
the source's, in order: numeric dtype; neither forced nor textual; no
non-null values; no non-none display strings; the all-or-nothing gate. -/
def convertColumn (name : String) (col : Col) : Col × Bool :=
  if col.dtype == Dtype.numeric then (col, false)
  else if !(shouldForceNumeric (normalizeColumnName name) || isTextualDtype col.dtype) then
    (col, false)
  else if (col.cells.filter (fun v => !(isNA v))).isEmpty
      && !(shouldForceNumeric (normalizeColumnName name)) then (col, false)
  else if (cleanedDisplayStrings col).isEmpty
      && !(shouldForceNumeric (normalizeColumnName name)) then (col, false)
  else if shouldForceNumeric (normalizeColumnName name)
      || (cleanedDisplayStrings col).all isNumericLikeStr then
    (⟨Dtype.numeric, col.cells.map convertCell⟩, true)
  else (col, false)

/-- `convert_text_columns_to_numbers`: every column in order, collecting
the names of the converted ones. -/
def convertTextColumnsToNumbers :
    List (String × Col) → List (String × Col) × List String
  | [] => ([], [])
  | (n, c) :: rest =>
    let step := convertColumn n c
    let restResult := convertTextColumnsToNumbers rest
    ((n, step.1) :: restResult.1,
     if step.2 then n :: restResult.2 else restResult.2)

/-! ### Shared lemmas -/

set_option allowUnsafeReducibility true in
attribute [semireducible] Rat.mul Rat.inv Rat.add Rat.sub Rat.neg Rat.ofScientific

theorem contains_true_iff {α : Type} [BEq α] [LawfulBEq α] (l : List α) (c : α) :
    l.contains c = true ↔ c ∈ l := by
  simp [List.contains, List.elem_iff]

theorem contains_false_iff {α : Type} [BEq α] [LawfulBEq α] (l : List α) (c : α) :
    l.contains c = false ↔ c ∉ l := by
  rw [← Bool.not_eq_true, not_iff_not]
  exact contains_true_iff l c

/-- C10: the strings "inf" and "nan" contain no digits, yet the parser
returns a cleaned value for them (the final validation only asks the
cleaned string to parse as a float literal), so `isNumericLike` holds
and `convertNumericText` yields a non-finite number, not null. -/
theorem c10_inf_nan_numeric_like :
    ("inf".data.all (fun c => !(isAsciiDigit c))) = true ∧
    ("nan".data.all (fun c => !(isAsciiDigit c))) = true ∧
    parseNumericText (.str "inf") = (some "inf".data, false) ∧
    parseNumericText (.str "nan") = (some "nan".data, false) ∧
    isNumericLike (.str "inf") = true ∧
    isNumericLike (.str "nan") = true ∧
    convertNumericText (.str "inf") = some (PyFloat.inf false) ∧
    convertNumericText (.str "nan") = some PyFloat.nan := by
  decide

/-- C9: a column is monetary exactly when its normalized name is a
member of the fixed target list (an exact match, not a substring test);
"Monto Neto de Operacion" qualifies with or without the accent, while
"valor de compra extra" does not although "valor de compra" occurs in
it as a substring. -/
theorem c9_monetary_exact_match :
    (∀ name : String,
      isMonetaryColumn name = true ↔ normalizeColumnName name ∈ moneyColTargets) ∧
    isMonetaryColumn "Monto Neto de Operacion" = true ∧
    isMonetaryColumn "Monto Neto de Operación" = true ∧
    isMonetaryColumn "valor de compra extra" = false ∧
    containsSub (normalizeColumnName "valor de compra extra").data
      "valor de compra".data = true := by
  refine ⟨?_, by decide, by decide, by decide, by decide⟩
  intro name
  unfold isMonetaryColumn
  exact contains_true_iff _ _

/-- C1: when both separators occur, the rightmost one is the decimal
point — a rightmost dot removes every comma, a rightmost comma removes
every dot and is rewritten to a dot; with exactly one comma and no dot,
the comma is the decimal point iff at most two characters follow it;
and the four round-trip instances of the spec hold. -/
theorem c1_separator_disambiguation :
    (∀ l : List Char, '.' ∈ l → ',' ∈ l →
      (pyRFind ',' l < pyRFind '.' l → resolveSeparators l = removeChar ',' l) ∧
      (pyRFind '.' l < pyRFind ',' l →
        resolveSeparators l = replaceChar ',' '.' (removeChar '.' l))) ∧
    (∀ l : List Char, countCh ',' l = 1 → '.' ∉ l →
      ((afterFirst ',' l).length ≤ 2 → resolveSeparators l = replaceChar ',' '.' l) ∧
      (2 < (afterFirst ',' l).length → resolveSeparators l = removeChar ',' l)) ∧
    convertNumericText (.str "1.234,56") = some (PyFloat.finite 1234.56) ∧
    convertNumericText (.str "1,234.56") = some (PyFloat.finite 1234.56) ∧
    convertNumericText (.str "1,23") = some (PyFloat.finite 1.23) ∧
    convertNumericText (.str "1,234") = some (PyFloat.finite 1234) := by
  refine ⟨?_, ?_, by decide, by decide, by decide, by decide⟩
  · intro l h1 h2
    have hc : (l.contains '.' && l.contains ',') = true := by
      rw [Bool.and_eq_true, contains_true_iff, contains_true_iff]
      exact ⟨h1, h2⟩
    constructor
    · intro hlt
      unfold resolveSeparators
      rw [if_pos hc, if_pos hlt]
    · intro hlt
      unfold resolveSeparators
      rw [if_pos hc, if_neg (by exact fun hgt => absurd hlt (not_lt_of_gt hgt))]
  · intro l h1 h2
    have hc : (l.contains '.' && l.contains ',') = false := by
      rw [Bool.and_eq_false_iff]
      exact Or.inl ((contains_false_iff l '.').mpr h2)
    constructor
    · intro hle
      unfold resolveSeparators
      rw [if_neg (by rw [hc]; exact Bool.false_ne_true),
          if_pos (by rw [Bool.and_eq_true, beq_iff_eq, decide_eq_true_iff]; exact ⟨h1, hle⟩)]
    · intro hgt
      unfold resolveSeparators
      rw [if_neg (by rw [hc]; exact Bool.false_ne_true),
          if_neg (by
            rw [Bool.and_eq_true, beq_iff_eq, decide_eq_true_iff]
            exact fun h => absurd hgt (not_lt_of_ge h.2))]

/-- Witness for C1: the comma of "1.234,56" is rightmost, so the dots
are removed and the comma becomes the decimal point. -/
theorem c1_separator_disambiguation_witness :
    resolveSeparators "1.234,56".data =
      replaceChar ',' '.' (removeChar '.' "1.234,56".data) :=
  (c1_separator_disambiguation.1 "1.234,56".data (by decide) (by decide)).2 (by decide)

/-- C6 counterexample: the sign `¨` (U+00A8) is caseless and trim-stable,
but its compatibility decomposition is a space followed by the combining
diaeresis, so one normalization pass yields `" "` and a second pass
trims that to `""` — idempotence fails for this string. -/
theorem c6_counterexample :
    normalizeColumnName (normalizeColumnName "¨") ≠ normalizeColumnName "¨" ∧
    normalizeColumnName "¨" = " " ∧
    normalizeColumnName (normalizeColumnName "¨") = "" := by
  decide

/-- C6 (amended): non-string inputs normalize to the empty string, and
normalization is idempotent for every string whose normalized form is
already trimmed, lowercase and NFKD-stable (compatibility decompositions
can emit spaces or uppercase letters, so the unrestricted statement
fails, see the counterexample). -/
theorem c6_normalize_idempotent :
    (∀ v : Value, (∀ s, v ≠ Value.str s) → normalizeColumnNameObj v = "") ∧
    (∀ s : String,
      pyStrip (normalizeColumnName s).data = (normalizeColumnName s).data →
      (normalizeColumnName s).data.map pyLowerChar = (normalizeColumnName s).data →
      flatMapChars nfkdChar (normalizeColumnName s).data = (normalizeColumnName s).data →
      normalizeColumnName (normalizeColumnName s) = normalizeColumnName s) := by
  constructor
  · intro v h
    cases v with
    | null => rfl
    | bool b => rfl
    | int n => rfl
    | float f => rfl
    | str s => exact absurd rfl (h s)
  · intro s h1 h2 h3
    have hout : normalizeColumnName (normalizeColumnName s) =
        String.mk ((flatMapChars nfkdChar
          ((pyStrip (normalizeColumnName s).data).map pyLowerChar)).filter
            (fun c => !(isCombiningMark c))) := rfl
    rw [hout, h1, h2, h3]
    have hd : (normalizeColumnName s).data =
        (flatMapChars nfkdChar ((pyStrip s.data).map pyLowerChar)).filter
          (fun c => !(isCombiningMark c)) := rfl
    conv_lhs => rw [hd, List.filter_filter]
    simp only [Bool.and_self]
    rfl

/-- Witness for C6: a non-string column label and an accented header. -/
theorem c6_normalize_idempotent_witness :
    normalizeColumnNameObj (Value.int 7) = "" ∧
    normalizeColumnName (normalizeColumnName "Héllo Ñandú") =
      normalizeColumnName "Héllo Ñandú" :=
  ⟨c6_normalize_idempotent.1 (Value.int 7) (fun s h => Value.noConfusion h),
   c6_normalize_idempotent.2 "Héllo Ñandú" (by decide) (by decide) (by decide)⟩

/-- If the cleaning pipeline returns a cleaned string, that string
parses as a float literal (the code validated it with `float(cleaned)`). -/
theorem parse_cleaned_parses (t c : List Char) (neg : Bool)
    (h : parseNumericTextS t = (some c, neg)) : (pyFloatValue c).isSome = true := by
  unfold parseNumericTextS at h
  by_cases hc : (pyFloatValue (cleanedNumeric t)).isSome = true
  · rw [if_pos hc, Prod.mk.injEq] at h
    rw [← Option.some.inj h.1]
    exact hc
  · rw [if_neg hc, Prod.mk.injEq] at h
    exact Option.noConfusion h.1

set_option maxRecDepth 20000 in
set_option exponentiation.threshold 3000 in
/-- C5 counterexample: the `float(text_value)` call of
`convert_numeric_text` on an int cell is outside any try/except, and
CPython raises OverflowError for `10 ^ 400` (the checked conversion is
`none`) and rounds `2 ^ 53 + 1` to `2 ^ 53` — so "never raises" and
"returned unchanged as a floating-point number" both fail for int input. -/
theorem c5_counterexample :
    pyFloatOfInt ((10 : ℤ) ^ 400) = Option.none ∧
    pyFloatOfInt ((2 : ℤ) ^ 53 + 1) = some (PyFloat.finite ((2 ^ 53 : ℤ) : ℚ)) ∧
    convertNumericText (.int ((2 : ℤ) ^ 53 + 1)) ≠
      some (PyFloat.finite ((2 ^ 53 + 1 : ℤ) : ℚ)) := by
  refine ⟨by decide, by decide, by decide⟩

/-- C5 (amended): `convertNumericText` maps None to NA; an int cell goes
through the checked `float(int)` conversion — the nearest double, equal
to the input whenever the conversion is exact, with `none` marking the
uncaught OverflowError beyond double range; a non-NaN float is returned
unchanged and NaN becomes NA; booleans and unparseable text become NA;
and otherwise the parsed value is returned, negated exactly when the
negative flag is set. -/
theorem c5_convert_total :
    convertNumericText Value.null = Option.none ∧
    (∀ n : ℤ, convertNumericText (.int n) = pyFloatOfInt n) ∧
    (∀ n : ℤ, pyFloatOfInt n = some (PyFloat.finite (n : ℚ)) →
      convertNumericText (.int n) = some (PyFloat.finite (n : ℚ))) ∧
    (∀ q : ℚ, convertNumericText (.float (.finite q)) = some (PyFloat.finite q)) ∧
    (∀ b : Bool, convertNumericText (.float (.inf b)) = some (PyFloat.inf b)) ∧
    convertNumericText (.float .nan) = Option.none ∧
    (∀ b : Bool, convertNumericText (.bool b) = Option.none) ∧
    (∀ s : String, (parseNumericText (.str s)).1 = Option.none →
      convertNumericText (.str s) = Option.none) ∧
    (∀ (s : String) (c : List Char) (neg : Bool),
      parseNumericText (.str s) = (some c, neg) →
      ∃ f, pyFloatValue c = some f ∧
        convertNumericText (.str s) = some (if neg then pyNeg f else f)) := by
  refine ⟨rfl, fun n => rfl, ?_, fun q => rfl, fun b => rfl, rfl, ?_, ?_, ?_⟩
  · intro n h
    exact h
  · intro b
    cases b <;> decide
  · intro s h
    have hp : parseNumericText (.str s) = (Option.none, (parseNumericText (.str s)).2) := by
      rw [← h]
    unfold convertNumericText
    rw [hp]
  · intro s c neg h
    have hps : (pyFloatValue c).isSome = true := by
      unfold parseNumericText at h
      cases hcs : coerceToString (.str s) with
      | none => rw [hcs] at h; simp at h
      | some t =>
        rw [hcs] at h
        exact parse_cleaned_parses t c neg h
    obtain ⟨f, hf⟩ := Option.isSome_iff_exists.mp hps
    refine ⟨f, hf, ?_⟩
    unfold convertNumericText
    rw [h]
    dsimp only
    rw [hf]

/-- Witness for C5: a small int converts exactly, unparseable text
returns null, and parsed text is negated according to the flag. -/
theorem c5_convert_total_witness :
    convertNumericText (.int 42) = some (PyFloat.finite ((42 : ℤ) : ℚ)) ∧
    convertNumericText (.str "no es numero") = Option.none ∧
    ∃ f, pyFloatValue "5.5".data = some f ∧
      convertNumericText (.str "5,5-") = some (if true then pyNeg f else f) :=
  ⟨c5_convert_total.2.2.1 42 (by decide),
   c5_convert_total.2.2.2.2.2.2.2.1 "no es numero" (by decide),
   c5_convert_total.2.2.2.2.2.2.2.2 "5,5-" "5.5".data true (by decide)⟩

/-- Currency stripping removes exactly the currency-symbol characters,
wherever they occur, preserving the rest of the string. -/
theorem stripCurrency_eq_filter (l : List Char) :
    stripCurrency l = l.filter (fun c => !(currencySymbols.contains c)) := by
  show removeChar '₹' (removeChar '₱' (removeChar '₽' (removeChar '¥'
    (removeChar '£' (removeChar '€' (removeChar '$' l)))))) = _
  unfold removeChar
  simp only [List.filter_filter]
  apply List.filter_congr
  intro c _
  by_cases h : c ∈ currencySymbols
  · simp only [currencySymbols, List.mem_cons, List.not_mem_nil, or_false] at h
    rcases h with rfl | rfl | rfl | rfl | rfl | rfl | rfl <;> decide
  · have hc : currencySymbols.contains c = false := (contains_false_iff _ _).mpr h
    rw [hc]
    simp only [currencySymbols, List.mem_cons, List.not_mem_nil, or_false, not_or] at h
    obtain ⟨h1, h2, h3, h4, h5, h6, h7⟩ := h
    simp [bne_iff_ne, h1, h2, h3, h4, h5, h6, h7]

/-- C3: currency symbols are stripped wherever they occur; then, for a
core `t` carrying no sign syntax of its own, a fully parenthesized
value, a trailing minus and a leading minus each consume their syntax
and set the negative flag (in that order, composing), while a leading
plus is stripped without effect; and the spec's sign instances hold. -/
theorem c3_sign_handling :
    (∀ l : List Char, stripCurrency l = l.filter (fun c => !(currencySymbols.contains c))) ∧
    (∀ t : List Char, t.head? ≠ some '(' → t.head? ≠ some '-' → t.head? ≠ some '+' →
      t.getLast? ≠ some ')' → t.getLast? ≠ some '-' →
      stripSign t = (t, false) ∧
      stripSign ('(' :: (t ++ [')'])) = (t, true) ∧
      stripSign (t ++ ['-']) = (t, true) ∧
      stripSign ('-' :: t) = (t, true) ∧
      stripSign ('+' :: t) = (t, false) ∧
      stripSign ('(' :: ((t ++ ['-']) ++ [')'])) = (t, true)) ∧
    convertNumericText (.str "(1.234,56)") = some (PyFloat.finite (-1234.56)) ∧
    convertNumericText (.str "€1.234,56") = some (PyFloat.finite 1234.56) ∧
    convertNumericText (.str "1,234.56") = some (PyFloat.finite 1234.56) := by
  refine ⟨stripCurrency_eq_filter, ?_, by decide, by decide, by decide⟩
  intro t h1 h2 h3 h4 h5
  have b1 : (t.head? == some '(') = false := beq_eq_false_iff_ne.mpr h1
  have b2 : (t.head? == some '-') = false := beq_eq_false_iff_ne.mpr h2
  have b3 : (t.head? == some '+') = false := beq_eq_false_iff_ne.mpr h3
  have b4 : (t.getLast? == some ')') = false := beq_eq_false_iff_ne.mpr h4
  have b5 : (t.getLast? == some '-') = false := beq_eq_false_iff_ne.mpr h5
  refine ⟨?_, ?_, ?_, ?_, ?_, ?_⟩
  · simp only [stripSign, b1, b4, b2, b3, b5, Bool.false_and, Bool.and_false,
      Bool.false_eq_true, if_false]
  · have hgl : ('(' :: (t ++ [')'])).getLast? = some ')' := by
      rw [← List.cons_append, List.getLast?_concat]
    have hdrop : ('(' :: (t ++ [')'])).drop 1 = t ++ [')'] := rfl
    simp only [stripSign, List.head?_cons, hgl, hdrop, List.dropLast_concat,
      beq_self_eq_true, Bool.and_self, if_true, b2, b3, b5, Bool.false_eq_true, if_false]
  · have hhd : ((t ++ ['-']).head? == some '(') = false := by
      cases t with
      | nil => decide
      | cons a t' =>
        rw [List.cons_append, List.head?_cons, beq_eq_false_iff_ne]
        rw [List.head?_cons] at h1
        exact h1
    have hgl : (t ++ ['-']).getLast? = some '-' := List.getLast?_concat _
    simp only [stripSign, hhd, hgl, Bool.false_and, Bool.false_eq_true, if_false,
      beq_self_eq_true, if_true, List.dropLast_concat, b2, b3]
  · cases t with
    | nil => decide
    | cons a t' =>
      have hgl : (('-' : Char) :: a :: t').getLast? = (a :: t').getLast? :=
        List.getLast?_cons_cons
      have b3a : ((some a : Option Char) == some '+') = false := by
        rwa [List.head?_cons] at b3
      simp only [stripSign, List.head?_cons, hgl, b4, b5, b3, b3a, Bool.and_false,
        Bool.false_eq_true, if_false, beq_self_eq_true, if_true,
        List.drop_succ_cons, List.drop_zero]
  · cases t with
    | nil => decide
    | cons a t' =>
      have hgl : (('+' : Char) :: a :: t').getLast? = (a :: t').getLast? :=
        List.getLast?_cons_cons
      have e1 : ((some '+' : Option Char) == some '(') = false := by decide
      have e2 : ((some '+' : Option Char) == some '-') = false := by decide
      have e3 : ((some '+' : Option Char) == some '+') = true := by decide
      simp only [stripSign, List.head?_cons, hgl, e1, e2, e3, b4, b5, b2, b3,
        Bool.false_and, Bool.and_false, Bool.false_eq_true, if_false,
        beq_self_eq_true, if_true, List.drop_succ_cons, List.drop_zero]
  · have hgl : ('(' :: ((t ++ ['-']) ++ [')'])).getLast? = some ')' := by
      rw [← List.cons_append, List.getLast?_concat]
    have hdrop : ('(' :: ((t ++ ['-']) ++ [')'])).drop 1 = (t ++ ['-']) ++ [')'] := rfl
    have hgl2 : (t ++ ['-']).getLast? = some '-' := List.getLast?_concat _
    simp only [stripSign, List.head?_cons, hgl, hdrop, List.dropLast_concat,
      beq_self_eq_true, Bool.and_self, if_true, hgl2, b2, b3, Bool.false_eq_true, if_false]

/-- Witness for C3: the sign-free core "5" composed with each sign
syntax. -/
theorem c3_sign_handling_witness :
    stripSign "5".data = ("5".data, false) ∧
    stripSign "(5)".data = ("5".data, true) ∧
    stripSign "5-".data = ("5".data, true) ∧
    stripSign "-5".data = ("5".data, true) ∧
    stripSign "+5".data = ("5".data, false) ∧
    stripSign "(5-)".data = ("5".data, true) :=
  c3_sign_handling.2.1 "5".data (by decide) (by decide) (by decide) (by decide) (by decide)

theorem bool_eq_false {b : Bool} (h : ¬ b = true) : b = false := by
  cases b
  · rfl
  · exact absurd rfl h

theorem isTextual_ne_numeric {d : Dtype} (h : isTextualDtype d = true) :
    d ≠ Dtype.numeric := fun hh => by
  rw [hh] at h
  exact absurd h (by decide)

theorem cleaned_nil_of_nonNull_nil {c : Col}
    (h : (c.cells.filter (fun v => !(isNA v))).isEmpty = true) :
    cleanedDisplayStrings c = [] := by
  unfold cleanedDisplayStrings
  rw [List.isEmpty_iff.mp h]
  rfl

/-- `convertColumn` either leaves the column untouched with a false
flag, or replaces it by the converted numeric column with a true flag. -/
theorem convertColumn_cases (n : String) (c : Col) :
    convertColumn n c = (c, false) ∨
    convertColumn n c = (⟨Dtype.numeric, c.cells.map convertCell⟩, true) := by
  unfold convertColumn
  split
  · exact Or.inl rfl
  split
  · exact Or.inl rfl
  split
  · exact Or.inl rfl
  split
  · exact Or.inl rfl
  split
  · exact Or.inr rfl
  · exact Or.inl rfl

/-- The exact conversion condition of `convertColumn`: the column is not
already numeric, and either it is force-numeric or it is textual with a
non-empty list of cleaned display strings that are all numeric-like. -/
theorem convertColumn_converted_iff (n : String) (c : Col) :
    (convertColumn n c).2 = true ↔
      (c.dtype ≠ Dtype.numeric ∧
        (shouldForceNumeric (normalizeColumnName n) = true ∨
          (isTextualDtype c.dtype = true ∧
           cleanedDisplayStrings c ≠ [] ∧
           (cleanedDisplayStrings c).all isNumericLikeStr = true))) := by
  unfold convertColumn
  by_cases h1 : (c.dtype == Dtype.numeric) = true
  · rw [if_pos h1]
    rw [beq_iff_eq] at h1
    simp [h1]
  · have hdt : c.dtype ≠ Dtype.numeric := beq_eq_false_iff_ne.mp (bool_eq_false h1)
    rw [if_neg h1]
    by_cases hF : shouldForceNumeric (normalizeColumnName n) = true
    · rw [if_neg (by simp [hF]), if_neg (by simp [hF]), if_neg (by simp [hF]),
        if_pos (by simp [hF])]
      simp [hdt, hF]
    · have hF' : shouldForceNumeric (normalizeColumnName n) = false := bool_eq_false hF
      by_cases hT : isTextualDtype c.dtype = true
      · rw [if_neg (by simp [hF', hT])]
        by_cases hNN : (c.cells.filter (fun v => !(isNA v))).isEmpty = true
        · rw [if_pos (by simp [hF', hNN])]
          have hcl := cleaned_nil_of_nonNull_nil hNN
          simp [hF', hcl]
        · rw [if_neg (by simp [bool_eq_false hNN])]
          by_cases hCL : (cleanedDisplayStrings c).isEmpty = true
          · rw [if_pos (by simp [hF', hCL])]
            have hcl : cleanedDisplayStrings c = [] := List.isEmpty_iff.mp hCL
            simp [hF', hcl]
          · rw [if_neg (by simp [bool_eq_false hCL])]
            have hne : cleanedDisplayStrings c ≠ [] := by
              intro hh
              rw [hh] at hCL
              exact hCL rfl
            by_cases hall : (cleanedDisplayStrings c).all isNumericLikeStr = true
            · rw [if_pos (by simp [hall])]
              simp [hdt, hT, hne, hall]
            · rw [if_neg (by simp [hF', bool_eq_false hall])]
              simp [hF', bool_eq_false hall]
      · have hT' : isTextualDtype c.dtype = false := bool_eq_false hT
        rw [if_pos (by simp [hF', hT'])]
        simp [hF', hT']

/-- C2 counterexample: a non-ID textual column consisting only of nulls
has an empty list of cleaned display strings, so every one of them is
(vacuously) numeric-like, yet the converter skips the column and reports
nothing — the unconditional "converts iff all values numeric-like" fails. -/
theorem c2_counterexample :
    containsSub (normalizeColumnName "a").data "id".data = false ∧
    (cleanedDisplayStrings ⟨Dtype.object, [Value.null]⟩).all isNumericLikeStr = true ∧
    convertTextColumnsToNumbers [("a", ⟨Dtype.object, [Value.null]⟩)] =
      ([("a", ⟨Dtype.object, [Value.null]⟩)], []) := by
  decide

/-- C2 (amended): a column whose normalized name does not contain "id"
is converted iff it is of textual dtype and its cleaned non-null display
strings are non-empty and all numeric-like; a non-converted column is
left untouched; and the mixed instance stays untouched and unreported. -/
theorem c2_all_or_nothing (name : String) (col : Col)
    (hforce : containsSub (normalizeColumnName name).data "id".data = false) :
    ((convertColumn name col).2 = true ↔
      (isTextualDtype col.dtype = true ∧
       cleanedDisplayStrings col ≠ [] ∧
       (cleanedDisplayStrings col).all isNumericLikeStr = true)) ∧
    ((convertColumn name col).2 = false → (convertColumn name col).1 = col) ∧
    convertTextColumnsToNumbers
      [("monto", ⟨Dtype.object, [.str "$123", .str "no aplicar", .str "$456"]⟩)] =
      ([("monto", ⟨Dtype.object, [.str "$123", .str "no aplicar", .str "$456"]⟩)], []) := by
  have hF : shouldForceNumeric (normalizeColumnName name) = false := by
    simp [shouldForceNumeric, idKeywords, hforce]
  refine ⟨?_, ?_, by decide⟩
  · rw [convertColumn_converted_iff]
    constructor
    · rintro ⟨hdt, hor⟩
      rcases hor with hf | h
      · rw [hF] at hf
        exact Bool.noConfusion hf
      · exact h
    · intro h
      exact ⟨isTextual_ne_numeric h.1, Or.inr h⟩
  · intro h
    rcases convertColumn_cases name col with hc | hc
    · rw [hc]
    · rw [hc] at h
      exact Bool.noConfusion h

/-- Witness for C2: the mixed column "monto" is not converted and its
values are untouched. -/
theorem c2_all_or_nothing_witness :
    (convertColumn "monto" ⟨Dtype.object, [.str "$123", .str "no aplicar", .str "$456"]⟩).1 =
      ⟨Dtype.object, [.str "$123", .str "no aplicar", .str "$456"]⟩ :=
  (c2_all_or_nothing "monto" ⟨Dtype.object, [.str "$123", .str "no aplicar", .str "$456"]⟩
    (by decide)).2.1 (by decide)

/-- C4 counterexample: an already-numeric column named "id" is skipped
and never recorded in the report, although its normalized name contains
"id" — the unconditional "converts and records every id column" fails. -/
theorem c4_counterexample :
    containsSub (normalizeColumnName "id").data "id".data = true ∧
    convertTextColumnsToNumbers [("id", ⟨Dtype.numeric, [Value.float (.finite 1)]⟩)] =
      ([("id", ⟨Dtype.numeric, [Value.float (.finite 1)]⟩)], []) := by
  decide

/-- C4 (amended): every column that is not already of numeric dtype and
whose normalized name contains "id" is converted regardless of content,
with individually unparseable cells becoming null, and the spec's
"Operacion ID" instance converts and is reported. -/
theorem c4_forced_conversion (name : String) (col : Col)
    (hid : containsSub (normalizeColumnName name).data "id".data = true)
    (hdt : col.dtype ≠ Dtype.numeric) :
    convertColumn name col = (⟨Dtype.numeric, col.cells.map convertCell⟩, true) ∧
    (∀ v : Value, convertNumericText v = Option.none → convertCell v = Value.null) ∧
    convertTextColumnsToNumbers
      [("Operacion ID", ⟨Dtype.object, [.str "000123", .str " 456 ", Value.null]⟩)] =
      ([("Operacion ID", ⟨Dtype.numeric,
        [.float (.finite 123), .float (.finite 456), Value.null]⟩)], ["Operacion ID"]) := by
  have hF : shouldForceNumeric (normalizeColumnName name) = true := by
    simp [shouldForceNumeric, idKeywords, hid]
  refine ⟨?_, ?_, by decide⟩
  · have hflag : (convertColumn name col).2 = true :=
      (convertColumn_converted_iff name col).mpr ⟨hdt, Or.inl hF⟩
    rcases convertColumn_cases name col with hc | hc
    · rw [hc] at hflag
      exact Bool.noConfusion hflag
    · exact hc
  · intro v h
    unfold convertCell
    rw [h]

/-- Witness for C4: the "Operacion ID" column converts as a whole. -/
theorem c4_forced_conversion_witness :
    convertColumn "Operacion ID" ⟨Dtype.object, [.str "000123", .str " 456 ", Value.null]⟩ =
      (⟨Dtype.numeric,
        ([.str "000123", .str " 456 ", Value.null] : List Value).map convertCell⟩, true) :=
  (c4_forced_conversion "Operacion ID"
    ⟨Dtype.object, [.str "000123", .str " 456 ", Value.null]⟩ (by decide) (by decide)).1

/-- The output table pairs every original column name with the result of
its per-column step, in order. -/
theorem convert_table_fst (df : List (String × Col)) :
    (convertTextColumnsToNumbers df).1 =
      df.map (fun p => (p.1, (convertColumn p.1 p.2).1)) := by
  induction df with
  | nil => rfl
  | cons p rest ih =>
    obtain ⟨n, c⟩ := p
    simp only [convertTextColumnsToNumbers, List.map_cons]
    rw [ih]

/-- The report is exactly the original-order filter of the converted
columns' names. -/
theorem convert_table_report (df : List (String × Col)) :
    (convertTextColumnsToNumbers df).2 =
      (df.filter (fun p => (convertColumn p.1 p.2).2)).map Prod.fst := by
  induction df with
  | nil => rfl
  | cons p rest ih =>
    obtain ⟨n, c⟩ := p
    by_cases hf : (convertColumn n c).2 = true
    · simp only [convertTextColumnsToNumbers, List.filter_cons]
      simp [hf, ih]
    · simp only [convertTextColumnsToNumbers, List.filter_cons]
      simp [bool_eq_false hf, ih]

/-- C7: the report lists exactly the names of the converted columns, in
the table's original column order (a sublist of the original names, no
sorting), and every column whose name is missing from the report keeps
its cells and dtype unchanged. -/
theorem c7_report_exact (df : List (String × Col)) :
    (convertTextColumnsToNumbers df).1 =
      df.map (fun p => (p.1, (convertColumn p.1 p.2).1)) ∧
    (convertTextColumnsToNumbers df).2 =
      (df.filter (fun p => (convertColumn p.1 p.2).2)).map Prod.fst ∧
    ((convertTextColumnsToNumbers df).2).Sublist (df.map Prod.fst) ∧
    (∀ p ∈ df, p.1 ∉ (convertTextColumnsToNumbers df).2 →
      (convertColumn p.1 p.2).1 = p.2) := by
  refine ⟨convert_table_fst df, convert_table_report df, ?_, ?_⟩
  · rw [convert_table_report]
    exact (List.filter_sublist df).map Prod.fst
  · intro p hp hnot
    rcases convertColumn_cases p.1 p.2 with hc | hc
    · rw [hc]
    · exfalso
      apply hnot
      rw [convert_table_report]
      exact List.mem_map.mpr ⟨p, List.mem_filter.mpr ⟨hp, by rw [hc]⟩, rfl⟩

/-- Witness for C7: in a two-column table where only the id column
converts, the other column is absent from the report and untouched. -/
theorem c7_report_exact_witness :
    (convertColumn "monto col" ⟨Dtype.object, [Value.str "x1"]⟩).1 =
      ⟨Dtype.object, [Value.str "x1"]⟩ :=
  (c7_report_exact [("idnum", ⟨Dtype.object, [Value.str "7"]⟩),
      ("monto col", ⟨Dtype.object, [Value.str "x1"]⟩)]).2.2.2
    ("monto col", ⟨Dtype.object, [Value.str "x1"]⟩) (by decide) (by decide)

/-- The filter predicate of `findColumnsWithKeywords`, characterized:
some keyword normalizes to a non-empty string occurring in the column's
normalized name. -/
theorem find_pred_iff (keywords : List String) (c : String) :
    ((keywords.map normalizeColumnName).any (fun k =>
        k != "" && containsSub (normalizeColumnName c).data k.data)) = true ↔
      ∃ k ∈ keywords, normalizeColumnName k ≠ "" ∧
        containsSub (normalizeColumnName c).data (normalizeColumnName k).data = true := by
  rw [List.any_eq_true]
  constructor
  · rintro ⟨k, hk, hcond⟩
    obtain ⟨k0, hk0, rfl⟩ := List.mem_map.mp hk
    rw [Bool.and_eq_true, bne_iff_ne] at hcond
    exact ⟨k0, hk0, hcond.1, hcond.2⟩
  · rintro ⟨k0, hk0, hne, hsub⟩
    refine ⟨normalizeColumnName k0, List.mem_map.mpr ⟨k0, hk0, rfl⟩, ?_⟩
    rw [Bool.and_eq_true, bne_iff_ne]
    exact ⟨hne, hsub⟩

/-- C8: the keyword search returns exactly the columns some non-empty
normalized keyword occurs in, in the original order, each column at most
once, and a keyword normalizing to "" matches nothing. -/
theorem c8_find_columns (columns keywords : List String) :
    findColumnsWithKeywords columns keywords =
      columns.filter (fun c => decide (∃ k ∈ keywords,
        normalizeColumnName k ≠ "" ∧
        containsSub (normalizeColumnName c).data (normalizeColumnName k).data = true)) ∧
    (findColumnsWithKeywords columns keywords).Sublist columns ∧
    (∀ c, c ∈ findColumnsWithKeywords columns keywords ↔
      (c ∈ columns ∧ ∃ k ∈ keywords, normalizeColumnName k ≠ "" ∧
        containsSub (normalizeColumnName c).data (normalizeColumnName k).data = true)) ∧
    (columns.Nodup → (findColumnsWithKeywords columns keywords).Nodup) := by
  have hpt : ∀ c, ((keywords.map normalizeColumnName).any (fun k =>
      k != "" && containsSub (normalizeColumnName c).data k.data)) =
      decide (∃ k ∈ keywords, normalizeColumnName k ≠ "" ∧
        containsSub (normalizeColumnName c).data (normalizeColumnName k).data = true) := by
    intro c
    rw [Bool.eq_iff_iff, find_pred_iff, decide_eq_true_iff]
  refine ⟨?_, ?_, ?_, ?_⟩
  · unfold findColumnsWithKeywords
    exact List.filter_congr (fun c _ => hpt c)
  · unfold findColumnsWithKeywords
    exact List.filter_sublist columns
  · intro c
    unfold findColumnsWithKeywords
    rw [List.mem_filter, find_pred_iff]
  · intro h
    unfold findColumnsWithKeywords
    exact h.filter _

/-- Witness for C8: a nodup column list yields a nodup result; the empty
keyword is ignored. -/
theorem c8_find_columns_witness :
    (findColumnsWithKeywords ["Fecha de Liberación", "Monto", "fecha2"]
      ["fecha", "liberacion", ""]).Nodup :=
  (c8_find_columns ["Fecha de Liberación", "Monto", "fecha2"]
    ["fecha", "liberacion", ""]).2.2.2 (by decide)

end MLConv
